import Mathlib

/-!
Verification of the SQS worker Lambda handler of cdk-worker-template
(source file: the worker handler module, symbols `handler` and
`processMessage`).

The handler is embedded shallowly: JavaScript values produced by
`JSON.parse` are modelled by the inductive `JsonValue`; the `JSON.parse`
primitive itself is a platform function, not repository code, so it is a
parameter `jsonParse : String → Option JsonValue` of the embedding
(`none` models a thrown `SyntaxError`).  JavaScript truthiness, `typeof`,
property access (including the `TypeError` thrown when reading a property
of `null`) and string coercion of the argument of `JSON.parse` are
modelled explicitly, following the JavaScript semantics the source relies
on.  JSON numbers are modelled as integers; no claim depends on numeric
formatting.
-/

namespace CdkWorker

/-- A JavaScript value as produced by `JSON.parse`. -/
inductive JsonValue where
  | null : JsonValue
  | bool : Bool → JsonValue
  | num : Int → JsonValue
  | str : String → JsonValue
  | arr : List JsonValue → JsonValue
  | obj : List (String × JsonValue) → JsonValue

/-- JavaScript truthiness: `null`, `false`, `0` and the empty string are
falsy; every object and array is truthy. -/
def truthy : JsonValue → Bool
  | .null => false
  | .bool b => b
  | .num n => n != 0
  | .str s => s != ""
  | .arr _ => true
  | .obj _ => true

/-- Whether `typeof v === "object"` holds in JavaScript: true for `null`,
arrays and plain objects. -/
def isObjectType : JsonValue → Bool
  | .null => true
  | .arr _ => true
  | .obj _ => true
  | _ => false

/-- Property lookup in an object field list; on duplicate keys the last
binding wins, matching what `JSON.parse` leaves on a JavaScript object. -/
def lookupLast (fields : List (String × JsonValue)) (k : String) : Option JsonValue :=
  (fields.reverse.find? (fun p => p.1 == k)).map (·.2)

/-- JavaScript property access `v.k` for values on which it does not
throw: fields exist only on plain objects; primitives box to objects
without such fields, and JSON arrays carry no named fields. -/
def jsGetField (v : JsonValue) (k : String) : Option JsonValue :=
  match v with
  | .obj fields => lookupLast fields k
  | _ => none

mutual

/-- JavaScript `String(v)` coercion, as applied by `JSON.parse` to a
non-string argument. -/
def jsToString : JsonValue → String
  | .null => "null"
  | .bool true => "true"
  | .bool false => "false"
  | .num n => toString n
  | .str s => s
  | .arr elems => String.intercalate "," (jsArrayElems elems)
  | .obj _ => "[object Object]"

/-- Elements of a JavaScript array under string coercion: `null` renders
empty, the rest recursively. -/
def jsArrayElems : List JsonValue → List String
  | [] => []
  | .null :: rest => "" :: jsArrayElems rest
  | v :: rest => jsToString v :: jsArrayElems rest

end

/-- The per-message error kinds raised inside the handler loop. -/
inductive MsgError where
  | malformedBody : MsgError
  | nullPropertyAccess : MsgError
  | malformedEnvelope : MsgError
  | invalidMessageFormat : MsgError
  | intentionalFailure : MsgError
  deriving DecidableEq

/-- Truthiness of the `shouldFail` field of a payload, as tested by
`if (message.shouldFail)` in `processMessage`. -/
def shouldFailFlag (v : JsonValue) : Bool :=
  match jsGetField v "shouldFail" with
  | some x => truthy x
  | none => false

/-- Truthiness of the `Message` field of a payload, as tested by
`if (messageBody.Message)` in the handler. -/
def truthyMessageFlag (v : JsonValue) : Bool :=
  match jsGetField v "Message" with
  | some x => truthy x
  | none => false

/-- Embedding of lines 54–58 of the handler:
`let message = messageBody; if (messageBody.Message) { message = JSON.parse(messageBody.Message) }`.
Reading `.Message` of `null` throws a `TypeError`; a truthy `Message`
field is passed to `JSON.parse` (after string coercion), whose failure is
a `SyntaxError`; otherwise the parsed body is kept unchanged. -/
def unwrap (jsonParse : String → Option JsonValue) : JsonValue → Except MsgError JsonValue
  | .null => .error .nullPropertyAccess
  | .obj fields =>
    match lookupLast fields "Message" with
    | some mv =>
      if truthy mv then
        match jsonParse (jsToString mv) with
        | some inner => .ok inner
        | none => .error .malformedEnvelope
      else .ok (.obj fields)
    | none => .ok (.obj fields)
  | v => .ok v

/-- Embedding of `processMessage` (the business-logic stub): rejects a
payload that is falsy or not of object type, throws intentionally when
the payload's `shouldFail` field is truthy, and otherwise succeeds.  The
artificial delay has no observable effect and is not modelled. -/
def processMessage (message : JsonValue) : Except MsgError Unit :=
  if !truthy message || !isObjectType message then
    .error .invalidMessageFormat
  else if shouldFailFlag message then
    .error .intentionalFailure
  else
    .ok ()

/-- The body of the `try` block of the handler loop for one record body:
parse the body, unwrap a truthy `Message` envelope, run the business
logic.  An `error` result models a caught exception. -/
def tryProcessRecord (jsonParse : String → Option JsonValue) (body : String) :
    Except MsgError Unit :=
  match jsonParse body with
  | none => .error .malformedBody
  | some messageBody =>
    match unwrap jsonParse messageBody with
    | .error e => .error e
    | .ok message => processMessage message

/-- Whether processing a record body ends in the `catch` branch. -/
def recordFails (jsonParse : String → Option JsonValue) (body : String) : Bool :=
  match tryProcessRecord jsonParse body with
  | .ok _ => false
  | .error _ => true

/-- An SQS record as delivered to the handler: the identifier and body the
loop reads, plus the delivery metadata the loop never reads. -/
structure SQSRecord where
  messageId : String
  receiptHandle : String
  body : String
  attributes : List (String × String)
  messageAttributes : List (String × String)
  md5OfBody : String
  eventSource : String
  eventSourceARN : String
  awsRegion : String
  deriving DecidableEq

/-- The SQS event: the batch of records of one invocation. -/
structure SQSEvent where
  Records : List SQSRecord
  deriving DecidableEq

/-- One entry of the partial-batch failure report. -/
structure SQSBatchItemFailure where
  itemIdentifier : String
  deriving DecidableEq

/-- The handler's return value. -/
structure SQSBatchResponse where
  batchItemFailures : List SQSBatchItemFailure
  deriving DecidableEq

/-- The environment configuration the handler reads (each may be absent). -/
structure Env where
  queueUrl : Option String
  topicArn : Option String
  dlqUrl : Option String
  environment : Option String
  logLevel : Option String
  deriving DecidableEq

/-- The Lambda context fields the handler reads (for logging only). -/
structure Context where
  awsRequestId : String
  functionName : String
  deriving DecidableEq

/-- Embedding of the handler: binds the logger child and the environment
configuration (log-only, so they carry no further), then runs the
per-record loop, appending the identifier of each failing record to
`batchItemFailures` in encounter order. -/
def handler (jsonParse : String → Option JsonValue) (env : Env) (ctx : Context)
    (event : SQSEvent) : SQSBatchResponse :=
  let _loggerChild := (ctx.awsRequestId, ctx.functionName)
  let _envConfig := (env.queueUrl, env.topicArn, env.dlqUrl, env.environment, env.logLevel)
  ⟨List.foldl
    (fun acc record =>
      match tryProcessRecord jsonParse record.body with
      | .ok _ => acc
      | .error _ => acc ++ [⟨record.messageId⟩])
    [] event.Records⟩

/-- Identifiers reported as failed by the handler, in report order. -/
def failedIds (jsonParse : String → Option JsonValue) (env : Env) (ctx : Context)
    (event : SQSEvent) : List String :=
  (handler jsonParse env ctx event).batchItemFailures.map (·.itemIdentifier)

/-- The identifiers of the batch, in delivery order. -/
def batchIds (event : SQSEvent) : List String :=
  event.Records.map (·.messageId)

/-- Identifiers of the batch that are not in the failure set: the records
the external runtime treats as successfully consumed. -/
def succeededIds (jsonParse : String → Option JsonValue) (env : Env) (ctx : Context)
    (event : SQSEvent) : List String :=
  (batchIds event).filter (fun i => !(failedIds jsonParse env ctx event).contains i)

/-- Whether a record body is set to intentionally fail: its effective
payload, after a successful parse and unwrap, carries a truthy
`shouldFail` field. -/
def setToFail (jsonParse : String → Option JsonValue) (body : String) : Bool :=
  match jsonParse body with
  | some v =>
    match unwrap jsonParse v with
    | .ok w => shouldFailFlag w
    | .error _ => false
  | none => false

/-- Modelled from the spec: the Envelope Unwrapper as the spec words it,
unwrapping whenever the `Message` field is present — with no truthiness
test — and failing when the field's value does not parse as JSON.
Declared only to compare against `unwrap`, the embedding of the code. -/
def unwrapByPresence (jsonParse : String → Option JsonValue) :
    JsonValue → Except MsgError JsonValue
  | .obj fields =>
    match lookupLast fields "Message" with
    | some mv =>
      match jsonParse (jsToString mv) with
      | some inner => .ok inner
      | none => .error .malformedEnvelope
    | none => .ok (.obj fields)
  | v => .ok v

/-! ## Concrete fixtures for witnesses and counterexamples -/

/-- A direct payload, as in the repository's test scenarios. -/
def wPayload : JsonValue := .obj [("test", .str "hi")]

/-- A concrete stand-in for `JSON.parse` covering the bodies used below;
every other string is a parse error, as for text that is not JSON. -/
def wParse : String → Option JsonValue := fun s =>
  if s == "bodyOk" then some wPayload
  else if s == "inner" then some wPayload
  else if s == "bodyWrapped" then some (.obj [("Message", .str "inner")])
  else if s == "bodyFail" then some (.obj [("shouldFail", .bool true)])
  else none

/-- A record with the given identifier and body and fixed metadata. -/
def mkRec (id body : String) : SQSRecord :=
  ⟨id, "rh-1", body, [], [], "md5", "aws:sqs", "arn:aws:sqs:q1", "ap-southeast-1"⟩

def recOk : SQSRecord := mkRec "m1" "bodyOk"

def recFail : SQSRecord := mkRec "m2" "bodyFail"

def recWrapped : SQSRecord := mkRec "m3" "bodyWrapped"

def recBad : SQSRecord := mkRec "m4" "notjson"

/-- Same identifier and body as `recOk`, every metadata field different. -/
def recOkAlt : SQSRecord :=
  ⟨"m1", "rh-2", "bodyOk", [("ApproximateReceiveCount", "3")], [("k", "v")],
    "md5-b", "aws:sqs", "arn:aws:sqs:q2", "us-east-1"⟩

def wEvent : SQSEvent := ⟨[recOk, recFail, recWrapped, recBad]⟩

def envNone : Env := ⟨none, none, none, none, none⟩

def ctx0 : Context := ⟨"req-1", "worker-fn"⟩

/-- Parse fixture for the C4 counterexample: the body `5` is valid JSON
and parses to the number `5`. -/
def cParse4 : String → Option JsonValue := fun s =>
  if s == "5" then some (.num 5) else none

def rec4 : SQSRecord := mkRec "m1" "5"

/-- Parse fixture for the C6 counterexample: the body `b6` parses to an
object whose `Message` field is the empty string; the empty string
itself is not valid JSON (`none`). -/
def cParse6 : String → Option JsonValue := fun s =>
  if s == "b6" then some (.obj [("Message", .str "")]) else none

def rec6 : SQSRecord := mkRec "m1" "b6"

def emptyMessageObj : JsonValue := .obj [("Message", .str "")]

/-- Parse fixture for the C7 counterexample: unwrapping once yields a
payload that itself carries a truthy `Message` field. -/
def cParse7 : String → Option JsonValue := fun s =>
  if s == "s1" then some (.obj [("Message", .str "s2")])
  else if s == "s2" then some (.num 5)
  else none

def wrapped7 : JsonValue := .obj [("Message", .str "s1")]

def once7 : JsonValue := .obj [("Message", .str "s2")]

/-! ## Characterization of the handler loop -/

/-- The failure-accumulating loop, characterized as a filter-then-map of
the records still to be processed, appended to the accumulator. -/
theorem handler_foldl_failures (jsonParse : String → Option JsonValue)
    (l : List SQSRecord) (acc : List SQSBatchItemFailure) :
    List.foldl
      (fun acc record =>
        match tryProcessRecord jsonParse record.body with
        | .ok _ => acc
        | .error _ => acc ++ [⟨record.messageId⟩])
      acc l
    = acc ++ (l.filter (fun r => recordFails jsonParse r.body)).map
        (fun r => (⟨r.messageId⟩ : SQSBatchItemFailure)) := by
  induction l generalizing acc with
  | nil => simp
  | cons r rest ih =>
    simp only [List.foldl_cons, List.filter_cons]
    cases htr : tryProcessRecord jsonParse r.body with
    | ok u => simp [recordFails, htr, ih]
    | error e => simp [recordFails, htr, ih]

/-- The handler's report is the identifiers of the failing records of the
batch, filtered and mapped in delivery order. -/
theorem handler_failures_char (jsonParse : String → Option JsonValue) (env : Env)
    (ctx : Context) (event : SQSEvent) :
    (handler jsonParse env ctx event).batchItemFailures
    = (event.Records.filter (fun r => recordFails jsonParse r.body)).map
        (fun r => (⟨r.messageId⟩ : SQSBatchItemFailure)) := by
  simpa using handler_foldl_failures jsonParse event.Records []

/-- A sublist of a duplicate-free list is recovered by filtering the list
for containment in the sublist. -/
theorem filter_contains_of_sublist {α : Type} [BEq α] [LawfulBEq α]
    {f l : List α} (hs : f.Sublist l) (hl : l.Nodup) :
    l.filter (fun a => f.contains a) = f := by
  induction hs with
  | slnil => rfl
  | @cons l₁ l₂ a hsub ih =>
    have ha : a ∉ l₂ := (List.nodup_cons.1 hl).1
    have haf : a ∉ l₁ := fun h => ha (hsub.subset h)
    rw [List.filter_cons]
    have hcf : l₁.contains a = false := by
      rw [Bool.eq_false_iff]
      intro hc
      obtain ⟨x, hx, hbeq⟩ := List.contains_iff_exists_mem_beq.1 hc
      have hax : a = x := beq_iff_eq.1 hbeq
      exact haf (hax.symm ▸ hx)
    simp only [hcf, Bool.false_eq_true, if_false]
    exact ih ((List.nodup_cons.1 hl).2)
  | @cons₂ l₁ l₂ a hsub ih =>
    have ha : a ∉ l₂ := (List.nodup_cons.1 hl).1
    rw [List.filter_cons]
    have hcons : ((a :: l₁).contains a) = true := by simp
    simp only [hcons, if_true]
    have heq : l₂.filter (fun x => (a :: l₁).contains x)
        = l₂.filter (fun x => l₁.contains x) := by
      apply List.filter_congr
      intro x hx
      have hxa : (x == a) = false := by
        simp only [beq_eq_false_iff_ne, ne_eq]
        intro hxe
        exact ha (hxe ▸ hx)
      simp [List.contains_cons, hxa]
    rw [heq, ih ((List.nodup_cons.1 hl).2)]

/-! ## Claim theorems -/

/-- C1 (failure isolation): for every batch split as `pre ++ r :: post`
with `r` a failing record, the failure report of the whole batch is the
report of `pre`, then `r`'s identifier, then the report of `post`; and
the report of the batch with `r` removed is exactly the report of `pre`
followed by the report of `post`.  Hence the disposition of every other
message is the same as it would be were the failing message absent: a
failure never stops, skips, or alters the processing of the rest of the
batch. -/
theorem handler_failure_isolation (jsonParse : String → Option JsonValue) (env : Env)
    (ctx : Context) (pre post : List SQSRecord) (r : SQSRecord)
    (h : recordFails jsonParse r.body = true) :
    (handler jsonParse env ctx ⟨pre ++ r :: post⟩).batchItemFailures
      = (handler jsonParse env ctx ⟨pre⟩).batchItemFailures
        ++ ⟨r.messageId⟩ :: (handler jsonParse env ctx ⟨post⟩).batchItemFailures
    ∧ (handler jsonParse env ctx ⟨pre ++ post⟩).batchItemFailures
      = (handler jsonParse env ctx ⟨pre⟩).batchItemFailures
        ++ (handler jsonParse env ctx ⟨post⟩).batchItemFailures := by
  constructor
  · rw [handler_failures_char, handler_failures_char, handler_failures_char]
    simp [List.filter_append, List.filter_cons, h]
  · rw [handler_failures_char, handler_failures_char, handler_failures_char]
    simp [List.filter_append]

/-- C3 (no foreign identifiers): every entry of the failure report names
the `messageId` of some record of the input batch. -/
theorem handler_failures_subset_batch_ids (jsonParse : String → Option JsonValue)
    (env : Env) (ctx : Context) (event : SQSEvent) (f : SQSBatchItemFailure)
    (hf : f ∈ (handler jsonParse env ctx event).batchItemFailures) :
    f.itemIdentifier ∈ event.Records.map (·.messageId) := by
  rw [handler_failures_char] at hf
  rcases List.mem_map.1 hf with ⟨r, hr, rfl⟩
  exact List.mem_map.2 ⟨r, (List.mem_filter.1 hr).1, rfl⟩

/-- C8 (deterministic order): the failure report is exactly the
identifiers of the records whose processing raised an error in steps
1–3 (body parse, envelope unwrap, business logic), in the original
encounter order of the batch. -/
theorem handler_failures_exact_in_order (jsonParse : String → Option JsonValue)
    (env : Env) (ctx : Context) (event : SQSEvent) :
    (handler jsonParse env ctx event).batchItemFailures
    = (event.Records.filter (fun r => recordFails jsonParse r.body)).map
        (fun r => (⟨r.messageId⟩ : SQSBatchItemFailure)) :=
  handler_failures_char jsonParse env ctx event

/-- C9 (configuration noninterference): the report is the same under any
assignment, including absence, of the five environment configuration
values; none of them gates message processing. -/
theorem handler_env_noninterference (jsonParse : String → Option JsonValue)
    (ctx : Context) (event : SQSEvent) (env env' : Env) :
    handler jsonParse env ctx event = handler jsonParse env' ctx event := rfl

/-- C10 (metadata noninterference): two batches that agree on the
sequence of `(messageId, body)` pairs yield identical reports; the
receipt handle, delivery attributes, message attributes and the other
record metadata never influence a record's disposition. -/
theorem handler_metadata_noninterference (jsonParse : String → Option JsonValue)
    (env : Env) (ctx : Context) (e₁ e₂ : SQSEvent)
    (h : e₁.Records.map (fun r => (r.messageId, r.body))
       = e₂.Records.map (fun r => (r.messageId, r.body))) :
    handler jsonParse env ctx e₁ = handler jsonParse env ctx e₂ := by
  have key : ∀ l₁ l₂ : List SQSRecord,
      l₁.map (fun r => (r.messageId, r.body)) = l₂.map (fun r => (r.messageId, r.body)) →
      (l₁.filter (fun r => recordFails jsonParse r.body)).map
          (fun r => (⟨r.messageId⟩ : SQSBatchItemFailure))
      = (l₂.filter (fun r => recordFails jsonParse r.body)).map
          (fun r => (⟨r.messageId⟩ : SQSBatchItemFailure)) := by
    intro l₁
    induction l₁ with
    | nil =>
      intro l₂ h₂
      cases l₂ with
      | nil => rfl
      | cons b t => simp at h₂
    | cons a t ih =>
      intro l₂ h₂
      cases l₂ with
      | nil => simp at h₂
      | cons b t₂ =>
        simp only [List.map_cons, List.cons.injEq, Prod.mk.injEq] at h₂
        obtain ⟨⟨hid, hbody⟩, ht⟩ := h₂
        simp only [List.filter_cons, hbody]
        cases hrf : recordFails jsonParse b.body with
        | false => simpa using ih t₂ ht
        | true => simpa [hid] using ih t₂ ht
  have hb : (handler jsonParse env ctx e₁).batchItemFailures
      = (handler jsonParse env ctx e₂).batchItemFailures := by
    rw [handler_failures_char, handler_failures_char]
    exact key e₁.Records e₂.Records h
  exact congrArg SQSBatchResponse.mk hb

/-- C2 (exactly-one disposition): for a batch with distinct identifiers,
the failure set is duplicate-free, and the identifiers not in the failure
set together with the failure set are a permutation of the batch's
identifiers — no duplicates, no omissions, none silently dropped. -/
theorem handler_disposition_partition (jsonParse : String → Option JsonValue)
    (env : Env) (ctx : Context) (event : SQSEvent)
    (h : (batchIds event).Nodup) :
    (failedIds jsonParse env ctx event).Nodup
    ∧ (succeededIds jsonParse env ctx event
        ++ failedIds jsonParse env ctx event).Perm (batchIds event) := by
  have hchar : failedIds jsonParse env ctx event
      = (event.Records.filter (fun r => recordFails jsonParse r.body)).map (·.messageId) := by
    unfold failedIds
    rw [handler_failures_char, List.map_map]
    rfl
  have hsub : (failedIds jsonParse env ctx event).Sublist (batchIds event) := by
    rw [hchar]
    exact (List.filter_sublist _).map _
  refine ⟨hsub.nodup h, ?_⟩
  have hfilter : (batchIds event).filter
      (fun i => (failedIds jsonParse env ctx event).contains i)
      = failedIds jsonParse env ctx event :=
    filter_contains_of_sublist hsub h
  have hperm := List.filter_append_perm
    (fun i => (failedIds jsonParse env ctx event).contains i) (batchIds event)
  rw [hfilter] at hperm
  refine List.Perm.trans List.perm_append_comm ?_
  exact hperm

/-- C5 (total, non-aborting error handling): every per-message error of
any kind yields a Failure disposition for that message in the report the
handler returns, and a message whose processing raises no error is never
reported as failed (given distinct identifiers); no error escapes the
per-message scope, the handler being a total function by construction. -/
theorem handler_error_containment (jsonParse : String → Option JsonValue)
    (env : Env) (ctx : Context) (event : SQSEvent) (r : SQSRecord)
    (hr : r ∈ event.Records) :
    (∀ e : MsgError, tryProcessRecord jsonParse r.body = .error e →
        (⟨r.messageId⟩ : SQSBatchItemFailure)
          ∈ (handler jsonParse env ctx event).batchItemFailures)
    ∧ (tryProcessRecord jsonParse r.body = .ok () →
        (event.Records.map (·.messageId)).Nodup →
        (⟨r.messageId⟩ : SQSBatchItemFailure)
          ∉ (handler jsonParse env ctx event).batchItemFailures) := by
  constructor
  · intro e he
    rw [handler_failures_char]
    refine List.mem_map.2 ⟨r, List.mem_filter.2 ⟨hr, ?_⟩, rfl⟩
    simp [recordFails, he]
  · intro hok hnd hmem
    rw [handler_failures_char] at hmem
    rcases List.mem_map.1 hmem with ⟨r', hr', heq⟩
    have hid : r'.messageId = r.messageId :=
      congrArg SQSBatchItemFailure.itemIdentifier heq
    have hr'mem : r' ∈ event.Records := (List.mem_filter.1 hr').1
    have hrr : r' = r := List.inj_on_of_nodup_map hnd hr'mem hr hid
    have hfail : recordFails jsonParse r'.body = true := by
      simpa using (List.mem_filter.1 hr').2
    rw [hrr] at hfail
    simp [recordFails, hok] at hfail

/-- C4 counterexample: a batch of one record whose body is the valid
JSON text `5`, whose payload carries no `shouldFail` flag, yet whose
report is not empty — the business-logic stub rejects every payload that
is not an object, so a batch of valid-JSON bodies with no intentional
failure can still produce failures. -/
theorem handler_valid_json_nonempty_failures :
    (cParse4 rec4.body).isSome = true
    ∧ setToFail cParse4 rec4.body = false
    ∧ (handler cParse4 envNone ctx0 ⟨[rec4]⟩).batchItemFailures = [⟨"m1"⟩] :=
  ⟨rfl, rfl, rfl⟩

/-- C4 (amended): for every batch in which every message body parses as
JSON to a value whose unwrap succeeds and yields a truthy payload of
object type with no truthy `shouldFail` field, the handler returns an
empty failure set. -/
theorem handler_wellformed_batch_no_failures (jsonParse : String → Option JsonValue)
    (env : Env) (ctx : Context) (event : SQSEvent)
    (h : ∀ r ∈ event.Records, ∃ v w, jsonParse r.body = some v
        ∧ unwrap jsonParse v = .ok w
        ∧ truthy w = true ∧ isObjectType w = true ∧ shouldFailFlag w = false) :
    (handler jsonParse env ctx event).batchItemFailures = [] := by
  rw [handler_failures_char]
  have hnil : event.Records.filter (fun r => recordFails jsonParse r.body) = [] := by
    rw [List.filter_eq_nil_iff]
    intro r hr
    obtain ⟨v, w, hv, hu, ht, ho, hs⟩ := h r hr
    simp [recordFails, tryProcessRecord, hv, hu, processMessage, ht, ho, hs]
  rw [hnil]
  rfl

/-- C6 counterexample: an object whose `Message` field is present but
falsy (the empty string, which is not valid JSON).  The claim requires
the field's value to be parsed and the message to be recorded as a
Failure; the code tests truthiness, leaves the payload unchanged, and
the message succeeds. -/
theorem unwrap_presence_mismatch :
    lookupLast [("Message", JsonValue.str "")] "Message" = some (.str "")
    ∧ cParse6 (jsToString (JsonValue.str "")) = none
    ∧ unwrap cParse6 emptyMessageObj = .ok emptyMessageObj
    ∧ unwrapByPresence cParse6 emptyMessageObj = .error .malformedEnvelope
    ∧ (handler cParse6 envNone ctx0 ⟨[rec6]⟩).batchItemFailures = [] :=
  ⟨rfl, rfl, rfl, rfl, rfl⟩

/-- C6 (amended): for a parsed body that is an object, if it has a
TRUTHY `Message` field then that field's value (string-coerced) is
parsed as JSON and the result is the effective payload, a parse failure
of it being a malformed-envelope error; with a falsy or absent `Message`
field the parsed body is passed unchanged; and a record whose body
parses to an object with a truthy `Message` field that fails to parse is
recorded as failing. -/
theorem unwrap_truthy_message_characterization (jsonParse : String → Option JsonValue)
    (fields : List (String × JsonValue)) (mv : JsonValue) (body : String) :
    (lookupLast fields "Message" = some mv → truthy mv = true →
        unwrap jsonParse (.obj fields)
          = match jsonParse (jsToString mv) with
            | some inner => Except.ok inner
            | none => Except.error MsgError.malformedEnvelope)
    ∧ (lookupLast fields "Message" = some mv → truthy mv = false →
        unwrap jsonParse (.obj fields) = .ok (.obj fields))
    ∧ (lookupLast fields "Message" = none →
        unwrap jsonParse (.obj fields) = .ok (.obj fields))
    ∧ (jsonParse body = some (.obj fields) → lookupLast fields "Message" = some mv →
        truthy mv = true → jsonParse (jsToString mv) = none →
        recordFails jsonParse body = true) := by
  refine ⟨?_, ?_, ?_, ?_⟩
  · intro h1 h2
    simp [unwrap, h1, h2]
  · intro h1 h2
    simp [unwrap, h1, h2]
  · intro h1
    simp [unwrap, h1]
  · intro hb h1 h2 hp
    simp [recordFails, tryProcessRecord, hb, unwrap, h1, h2, hp]

/-- C7 counterexample: a wrapped payload whose inner payload itself
carries a truthy `Message` field; a second application of the unwrapper
unwraps again, so unwrapping composed with itself differs from one
unwrapping. -/
theorem unwrap_not_idempotent :
    unwrap cParse7 wrapped7 = .ok once7
    ∧ (unwrap cParse7 wrapped7).bind (unwrap cParse7) = .ok (.num 5)
    ∧ (unwrap cParse7 wrapped7).bind (unwrap cParse7) ≠ unwrap cParse7 wrapped7 := by
  refine ⟨rfl, rfl, ?_⟩
  intro h
  have h' : (Except.ok (JsonValue.num 5) : Except MsgError JsonValue)
      = Except.ok once7 := h
  have h'' : JsonValue.num 5 = once7 := by injection h'
  simp [once7] at h''

/-- C7 (amended): the unwrapper is a no-op on every non-null payload
without a truthy `Message` field; consequently, whenever the output of a
previous unwrap is non-null and has no truthy `Message` field, a second
unwrap leaves it unchanged. -/
theorem unwrap_noop_on_unwrapped (jsonParse : String → Option JsonValue)
    (v w : JsonValue) (hw : unwrap jsonParse v = .ok w) (hnn : w ≠ .null)
    (hm : truthyMessageFlag w = false) :
    unwrap jsonParse w = .ok w
    ∧ (unwrap jsonParse v).bind (unwrap jsonParse) = unwrap jsonParse v := by
  have h1 : unwrap jsonParse w = .ok w := by
    cases w with
    | null => exact absurd rfl hnn
    | bool b => rfl
    | num n => rfl
    | str s => rfl
    | arr xs => rfl
    | obj fields =>
      cases hl : lookupLast fields "Message" with
      | none => simp [unwrap, hl]
      | some mv =>
        have hmv : truthy mv = false := by
          simpa [truthyMessageFlag, jsGetField, hl] using hm
        simp [unwrap, hl, hmv]
  refine ⟨h1, ?_⟩
  rw [hw]
  exact h1

/-! ## Witnesses -/

/-- Witness for C1 at a concrete batch: the failing record `recFail`
between `recOk` and `recWrapped`. -/
theorem handler_failure_isolation_witness :
    recordFails wParse recFail.body = true
    ∧ ((handler wParse envNone ctx0 ⟨[recOk] ++ recFail :: [recWrapped]⟩).batchItemFailures
        = (handler wParse envNone ctx0 ⟨[recOk]⟩).batchItemFailures
          ++ ⟨recFail.messageId⟩
            :: (handler wParse envNone ctx0 ⟨[recWrapped]⟩).batchItemFailures
      ∧ (handler wParse envNone ctx0 ⟨[recOk] ++ [recWrapped]⟩).batchItemFailures
        = (handler wParse envNone ctx0 ⟨[recOk]⟩).batchItemFailures
          ++ (handler wParse envNone ctx0 ⟨[recWrapped]⟩).batchItemFailures) :=
  ⟨by decide,
    handler_failure_isolation wParse envNone ctx0 [recOk] [recWrapped] recFail (by decide)⟩

/-- Witness for C2 at a concrete batch of four records with distinct
identifiers, two failing. -/
theorem handler_disposition_partition_witness :
    (batchIds wEvent).Nodup
    ∧ ((failedIds wParse envNone ctx0 wEvent).Nodup
      ∧ (succeededIds wParse envNone ctx0 wEvent
          ++ failedIds wParse envNone ctx0 wEvent).Perm (batchIds wEvent)) :=
  ⟨by decide, handler_disposition_partition wParse envNone ctx0 wEvent (by decide)⟩

/-- Witness for C3 at a concrete batch: the reported failure `m2` is an
identifier of the batch. -/
theorem handler_failures_subset_batch_ids_witness :
    (⟨"m2"⟩ : SQSBatchItemFailure)
      ∈ (handler wParse envNone ctx0 wEvent).batchItemFailures
    ∧ "m2" ∈ wEvent.Records.map (·.messageId) :=
  ⟨by decide,
    handler_failures_subset_batch_ids wParse envNone ctx0 wEvent ⟨"m2"⟩ (by decide)⟩

/-- Witness for the amended C4 at a concrete batch of a direct and a
wrapped well-formed record. -/
theorem handler_wellformed_batch_no_failures_witness :
    (handler wParse envNone ctx0 ⟨[recOk, recWrapped]⟩).batchItemFailures = [] :=
  handler_wellformed_batch_no_failures wParse envNone ctx0 ⟨[recOk, recWrapped]⟩ (by
    intro r hr
    rcases List.mem_cons.1 hr with h | h
    · subst h
      exact ⟨wPayload, wPayload, rfl, rfl, rfl, rfl, rfl⟩
    · rcases List.mem_cons.1 h with h2 | h2
      · subst h2
        exact ⟨.obj [("Message", .str "inner")], wPayload, rfl, rfl, rfl, rfl, rfl⟩
      · cases h2)

/-- Witness for C5 at a concrete batch: the intentional failure of
`recFail` is reported. -/
theorem handler_error_containment_witness :
    recFail ∈ wEvent.Records
    ∧ tryProcessRecord wParse recFail.body = .error .intentionalFailure
    ∧ (⟨recFail.messageId⟩ : SQSBatchItemFailure)
        ∈ (handler wParse envNone ctx0 wEvent).batchItemFailures :=
  ⟨by decide, rfl,
    (handler_error_containment wParse envNone ctx0 wEvent recFail (by decide)).1
      .intentionalFailure rfl⟩

/-- Witness for the amended C6 at a concrete truthy `Message` field. -/
theorem unwrap_truthy_message_characterization_witness :
    lookupLast [("Message", JsonValue.str "inner")] "Message" = some (.str "inner")
    ∧ truthy (.str "inner") = true
    ∧ unwrap wParse (.obj [("Message", .str "inner")])
        = match wParse (jsToString (JsonValue.str "inner")) with
          | some inner => Except.ok inner
          | none => Except.error MsgError.malformedEnvelope :=
  ⟨rfl, rfl,
    (unwrap_truthy_message_characterization wParse
      [("Message", .str "inner")] (.str "inner") "bodyWrapped").1 rfl rfl⟩

/-- Witness for the amended C7: the unwrapped direct payload `wPayload`
is left unchanged by a second unwrap. -/
theorem unwrap_noop_on_unwrapped_witness :
    unwrap wParse (.obj [("Message", .str "inner")]) = .ok wPayload
    ∧ wPayload ≠ .null
    ∧ truthyMessageFlag wPayload = false
    ∧ (unwrap wParse wPayload = .ok wPayload
      ∧ (unwrap wParse (.obj [("Message", .str "inner")])).bind (unwrap wParse)
          = unwrap wParse (.obj [("Message", .str "inner")])) :=
  ⟨rfl, by simp [wPayload], rfl,
    unwrap_noop_on_unwrapped wParse (.obj [("Message", .str "inner")]) wPayload rfl
      (by simp [wPayload]) rfl⟩

/-- Witness for C10: two batches agreeing on identifiers and bodies but
differing in every metadata field give the same report. -/
theorem handler_metadata_noninterference_witness :
    (SQSEvent.mk [recOk, recFail]).Records.map (fun r => (r.messageId, r.body))
      = (SQSEvent.mk [recOkAlt, recFail]).Records.map (fun r => (r.messageId, r.body))
    ∧ handler wParse envNone ctx0 ⟨[recOk, recFail]⟩
      = handler wParse envNone ctx0 ⟨[recOkAlt, recFail]⟩ :=
  ⟨rfl, handler_metadata_noninterference wParse envNone ctx0
    ⟨[recOk, recFail]⟩ ⟨[recOkAlt, recFail]⟩ rfl⟩

end CdkWorker
